import Mathlib

/-!
Shallow embedding of the POBPC consensus structures of
`src/include/consensus/OptimizedPOBPC.hpp` (namespace `quids::consensus`).

Conventions of the embedding:
* `double` is embedded as `ℚ` (the source only adds, divides and compares
  finitely many values; literals such as `0.75`, `0.66` are taken at face
  value as rationals);
* `std::vector<uint8_t>` is embedded as `List ℕ` (contents are opaque, only
  emptiness is ever inspected by the functions under study);
* `size_t` / `uint64_t` counters are embedded as `ℕ`;
* the quantum-state fields (`quantum_state`, `measurements`) are omitted:
  none of the member functions verified here reads them;
* C++ indexed loops over `vector`s become sums over `List.range` with
  `List.getD`, which mirrors the source's explicit bound checks
  (`i < v.size()` before `v[i]`).
-/

namespace POBPC

/-- `OptimizedPOBPC::BatchProof::WitnessData` (OptimizedPOBPC.hpp, lines 200-229). -/
structure WitnessData where
  selected_witnesses : List String
  reliability_scores : List ℚ
  verification_times : List ℕ
  quorum_threshold : ℚ
  has_consensus : Bool
deriving DecidableEq

/-- `total_weight` of `WitnessData::hasQuorum`: sum of all reliability scores. -/
def totalWeight (scores : List ℚ) : ℚ := scores.sum

/-- `verified_weight` of `WitnessData::hasQuorum`: sum of `reliability_scores[i]`
over `i < reliability_scores.size()` with `i < verification_times.size()` and
`verification_times[i] > 0`.  `List.getD i 0` yields `0` both for a stored `0`
and for an out-of-range index, and `0 > 0` is false, so the bound check of the
source is mirrored exactly. -/
def verifiedWeight (scores : List ℚ) (times : List ℕ) : ℚ :=
  ((List.range scores.length).map
    (fun i => if times.getD i 0 > 0 then scores.getD i 0 else 0)).sum

/-- `WitnessData::hasQuorum` (lines 211-228): early `false` on empty
`selected_witnesses` or `reliability_scores`, else the weighted test. -/
def WitnessData.hasQuorum (wd : WitnessData) : Bool :=
  if wd.selected_witnesses = [] ∨ wd.reliability_scores = [] then false
  else
    decide (totalWeight wd.reliability_scores > 0 ∧
      verifiedWeight wd.reliability_scores wd.verification_times /
        totalWeight wd.reliability_scores ≥ wd.quorum_threshold)

/-- `OptimizedPOBPC::BatchProof::ZKPData` (lines 177-195). -/
structure ZKPData where
  commitment : List ℕ
  challenge : List ℕ
  response : List ℕ
  recursive_proof : List ℕ
  verification_confidence : ℚ
deriving DecidableEq

/-- `ZKPData::isComplete` (lines 188-194). -/
def ZKPData.isComplete (z : ZKPData) : Bool :=
  decide (z.commitment ≠ [] ∧ z.challenge ≠ [] ∧ z.response ≠ [] ∧
    z.verification_confidence ≥ 0 ∧ z.verification_confidence ≤ 1)

/-- `OptimizedPOBPC::BatchProof::BatchMetrics` (lines 234-252). -/
structure BatchMetrics where
  avg_transaction_size : ℚ
  proof_generation_time : ℚ
  verification_time : ℚ
  recursive_depth : ℕ
  quantum_enhancement_factor : ℚ
deriving DecidableEq

/-- `BatchMetrics::isValid` (lines 245-251). -/
def BatchMetrics.isValid (m : BatchMetrics) : Bool :=
  decide (m.avg_transaction_size > 0 ∧ m.proof_generation_time > 0 ∧
    m.verification_time > 0 ∧ m.recursive_depth ≤ 5 ∧
    m.quantum_enhancement_factor ≥ 1)

/-- `OptimizedPOBPC::BatchProof` (lines 165-305); the quantum-state fields are
omitted (never read by the functions below). -/
structure BatchProof where
  timestamp : ℕ
  transaction_count : ℕ
  batch_hash : List ℕ
  proof_data : List ℕ
  witness_signatures : List (List ℕ)
  zkp_data : ZKPData
  witness_data : WitnessData
  metrics : BatchMetrics
deriving DecidableEq

/-- `BatchProof::isValid` (lines 258-269). -/
def BatchProof.isValid (p : BatchProof) : Bool :=
  decide (p.timestamp > 0 ∧ p.transaction_count > 0 ∧
    p.batch_hash ≠ [] ∧ p.proof_data ≠ [] ∧ p.witness_signatures ≠ [] ∧
    p.witness_data.selected_witnesses ≠ [] ∧
    p.witness_data.reliability_scores.length =
      p.witness_data.selected_witnesses.length ∧
    p.witness_data.verification_times.length =
      p.witness_data.selected_witnesses.length ∧
    p.witness_data.quorum_threshold ≥ 66/100 ∧
    p.metrics.isValid = true)

/-- `valid_weight` of `BatchProof::calculateConfidence`: sum of
`reliability_scores[i]` over `i` with `i < witness_signatures.size()` and
`witness_signatures[i]` non-empty; `List.getD i []` yields `[]` both for a
stored empty signature and for an out-of-range index, mirroring the bound
check of the source. -/
def validWeight (scores : List ℚ) (sigs : List (List ℕ)) : ℚ :=
  ((List.range scores.length).map
    (fun i => if sigs.getD i [] ≠ [] then scores.getD i 0 else 0)).sum

/-- `BatchProof::calculateConfidence` (lines 275-293). -/
def BatchProof.calculateConfidence (p : BatchProof) : ℚ :=
  if p.witness_signatures = [] ∨ p.witness_data.reliability_scores = [] then 0
  else if totalWeight p.witness_data.reliability_scores > 0 then
    validWeight p.witness_data.reliability_scores p.witness_signatures /
      totalWeight p.witness_data.reliability_scores
  else 0

/-- `BatchProof::isReadyForConsensus` (lines 299-304). -/
def BatchProof.isReadyForConsensus (p : BatchProof) : Bool :=
  p.isValid && p.zkp_data.isComplete && p.witness_data.hasQuorum &&
    decide (p.calculateConfidence ≥ p.witness_data.quorum_threshold)

/-- `BatchConfig` (lines 55-97) with the default member initializers of the
source as Lean default field values. -/
structure BatchConfig where
  max_transactions : ℕ := 1000
  witness_count : ℕ := 4
  consensus_threshold : ℚ := 3/4
  use_quantum_proofs : Bool := true
  batch_size : ℕ := 256
  num_parallel_verifiers : ℕ := 8
  quantum_circuit_depth : ℕ := 32
  enable_error_correction : Bool := true
  batch_timeout : ℕ := 1000
  witness_selection_entropy : ℚ := 1
  min_witness_reliability : ℕ := 80
  max_batch_verification_time : ℕ := 500
  adaptive_witness_selection : Bool := true
  recursive_zkp_layers : ℕ := 2
deriving DecidableEq

/-- `BatchConfig::isValid` (lines 82-96). -/
def BatchConfig.isValid (c : BatchConfig) : Bool :=
  decide (c.max_transactions > 0 ∧ c.witness_count ≥ 3 ∧
    c.consensus_threshold ≥ 66/100 ∧ c.consensus_threshold ≤ 1 ∧
    c.batch_size > 0 ∧ c.batch_size ≤ c.max_transactions ∧
    c.num_parallel_verifiers > 0 ∧
    c.quantum_circuit_depth > 0 ∧ c.quantum_circuit_depth ≤ 100 ∧
    c.min_witness_reliability > 50 ∧ c.min_witness_reliability ≤ 100 ∧
    c.recursive_zkp_layers > 0 ∧ c.recursive_zkp_layers ≤ 5)

/-- The default-constructed `BatchConfig` (all member initializers). -/
def defaultBatchConfig : BatchConfig := {}

/-- `OptimizedPOBPC::WitnessInfo` (lines 116-156); the quantum-state field is
omitted.  The source's default member initializers are kept
(`reliability_score{1.0}`, counters `{0}`). -/
structure WitnessInfo where
  node_id : String
  public_key : List ℕ
  reliability_score : ℚ := 1
  last_active : ℕ := 0
  successful_validations : ℕ := 0
  total_validations : ℕ := 0
deriving DecidableEq

/-- `WitnessInfo::calculateReliability` (lines 129-133). -/
def WitnessInfo.calculateReliability (w : WitnessInfo) : ℚ :=
  if w.total_validations > 0 then
    (w.successful_validations : ℚ) / (w.total_validations : ℚ)
  else 0

/-- `WitnessInfo::updateReliability` (lines 139-145): bump the counters, then
store the recomputed reliability. -/
def WitnessInfo.updateReliability (w : WitnessInfo) (success : Bool) : WitnessInfo :=
  let w' : WitnessInfo :=
    { w with
      successful_validations :=
        if success then w.successful_validations + 1 else w.successful_validations
      total_validations := w.total_validations + 1 }
  { w' with reliability_score := w'.calculateReliability }

/-- A finite sequence of `updateReliability` calls, applied in order. -/
def applyUpdates (w : WitnessInfo) : List Bool → WitnessInfo
  | [] => w
  | b :: l => applyUpdates (w.updateReliability b) l

/-- Modelled from the spec: the body of `OptimizedPOBPC::registerWitness`
(the `Impl` class) is not under `src/`; only its declaration and callers are.
The spec states that on success it "creates a `WitnessInfo` with reliability 0
and `last_active` = now", with no validations recorded yet. -/
def registeredWitnessInfo (node_id : String) (public_key : List ℕ) (now : ℕ) :
    WitnessInfo :=
  { node_id := node_id
    public_key := public_key
    reliability_score := 0
    last_active := now
    successful_validations := 0
    total_validations := 0 }

/-! Concrete values used in scenario conjuncts, counterexamples and witnesses. -/

/-- The witness state of end-to-end scenario B: 4 selected witnesses of
reliability `0.25` each, `quorum_threshold = 0.75`, three verified votes. -/
def quorumThree : WitnessData :=
  { selected_witnesses := ["w0", "w1", "w2", "w3"]
    reliability_scores := [1/4, 1/4, 1/4, 1/4]
    verification_times := [1, 1, 1, 0]
    quorum_threshold := 3/4
    has_consensus := false }

/-- Scenario B with only two verified votes. -/
def quorumTwo : WitnessData := { quorumThree with verification_times := [1, 1, 0, 0] }

/-- A `WitnessData` with empty `selected_witnesses` but positive total
reliability weight: the early-return of `hasQuorum` fires although the
weighted test would pass. -/
def emptySelectedQuorum : WitnessData :=
  { selected_witnesses := []
    reliability_scores := [1]
    verification_times := [1]
    quorum_threshold := 1/2
    has_consensus := false }

/-- Batch metrics passing every range check of `BatchMetrics::isValid`. -/
def metricsOk : BatchMetrics :=
  { avg_transaction_size := 1
    proof_generation_time := 1
    verification_time := 1
    recursive_depth := 0
    quantum_enhancement_factor := 1 }

/-- A `BatchProof` whose three witness arrays are all empty (hence of equal
length) while every other field passes its check. -/
def emptyWitnessProof : BatchProof :=
  { timestamp := 1
    transaction_count := 1
    batch_hash := [0]
    proof_data := [0]
    witness_signatures := [[0]]
    zkp_data :=
      { commitment := [0], challenge := [0], response := [0]
        recursive_proof := [], verification_confidence := 1 }
    witness_data :=
      { selected_witnesses := [], reliability_scores := []
        verification_times := [], quorum_threshold := 66/100
        has_consensus := false }
    metrics := metricsOk }

/-- A `BatchProof` with `verification_confidence = 1.2` (out of `[0,1]`),
otherwise fully populated; used for the scenario-C conjunct of C2 and as a
generic sample proof. -/
def sampleProof : BatchProof :=
  { timestamp := 1
    transaction_count := 2
    batch_hash := [0]
    proof_data := [0]
    witness_signatures := [[7], []]
    zkp_data :=
      { commitment := [0], challenge := [0], response := [0]
        recursive_proof := [], verification_confidence := 6/5 }
    witness_data :=
      { selected_witnesses := ["w0", "w1"], reliability_scores := [3/5, 2/5]
        verification_times := [1, 0], quorum_threshold := 3/4
        has_consensus := false }
    metrics := metricsOk }

/-- Otherwise-default config with `witness_count = 2`. -/
def configTwoWitnesses : BatchConfig := { witness_count := 2 }

/-- Otherwise-default config with `consensus_threshold = 0.5`. -/
def configHalfThreshold : BatchConfig := { consensus_threshold := 1/2 }

/-- A freshly default-constructed `WitnessInfo` (counters at zero, stored
score at the header's default initializer). -/
def initialWitness : WitnessInfo := { node_id := "w", public_key := [1] }

/-! Helper lemmas shared by the developments below. -/

/-- Summing `l.getD i 0` over `i < l.length` is `l.sum`. -/
theorem sum_map_getD_range (l : List ℚ) :
    ((List.range l.length).map fun i => l.getD i 0).sum = l.sum := by
  induction l with
  | nil => simp
  | cons a t ih =>
    rw [List.length_cons, List.range_succ_eq_map, List.map_cons, List.map_map]
    have hs : ((fun i => (a :: t).getD i 0) ∘ Nat.succ) = fun i => t.getD i 0 := by
      funext i
      rfl
    rw [hs, List.sum_cons, ih]
    simp

/-- `getD` with default `d` looks through padding by `List.replicate _ d`. -/
theorem getD_append_replicate {α : Type} (d : α) (l : List α) (k j : ℕ) :
    (l ++ List.replicate k d).getD j d = l.getD j d := by
  rcases Nat.lt_or_ge j l.length with h | h
  · exact List.getD_append _ _ _ _ h
  · rw [List.getD_append_right _ _ _ _ h, List.getD_eq_default _ _ h]
    rcases Nat.lt_or_ge (j - l.length) k with h2 | h2
    · rw [List.getD_eq_getElem _ _ (by simpa using h2)]
      simp
    · exact List.getD_eq_default _ _ (by simpa using h2)

/-- Overwriting a `verification_times` entry that is already positive with a
positive value does not change the verified weight. -/
theorem verifiedWeight_set (scores : List ℚ) (times : List ℕ) (i t : ℕ)
    (hi : times.getD i 0 > 0) (ht : 0 < t) :
    verifiedWeight scores (times.set i t) = verifiedWeight scores times := by
  unfold verifiedWeight
  congr 1
  apply List.map_congr_left
  intro j _
  by_cases hji : j = i
  · subst hji
    have hlen : j < times.length := by
      by_contra hcon
      push_neg at hcon
      rw [List.getD_eq_default _ _ hcon] at hi
      exact Nat.lt_irrefl 0 hi
    have h1 : (times.set j t).getD j 0 = t := by
      rw [List.getD_eq_getElem?_getD, List.getElem?_set_self hlen]
      rfl
    rw [h1, if_pos ht, if_pos hi]
  · have h2 : (times.set i t).getD j 0 = times.getD j 0 := by
      rw [List.getD_eq_getElem?_getD, List.getD_eq_getElem?_getD,
        List.getElem?_set_ne (Ne.symm hji)]
    rw [h2]

/-- Padding `verification_times` with zero timestamps leaves the verified
weight unchanged. -/
theorem verifiedWeight_pad (scores : List ℚ) (times : List ℕ) (k : ℕ) :
    verifiedWeight scores (times ++ List.replicate k 0) =
      verifiedWeight scores times := by
  unfold verifiedWeight
  congr 1
  apply List.map_congr_left
  intro j _
  rw [getD_append_replicate]

/-- Padding `witness_signatures` with empty signatures leaves the valid
weight unchanged. -/
theorem validWeight_pad (scores : List ℚ) (sigs : List (List ℕ)) (k : ℕ) :
    validWeight scores (sigs ++ List.replicate k []) = validWeight scores sigs := by
  unfold validWeight
  congr 1
  apply List.map_congr_left
  intro j _
  rw [getD_append_replicate]

/-- With no signatures at all, the valid weight is zero. -/
theorem validWeight_nil (scores : List ℚ) : validWeight scores [] = 0 := by
  unfold validWeight
  simp

/-- The total weight of nonnegative scores is nonnegative. -/
theorem totalWeight_nonneg (scores : List ℚ) (h : ∀ r ∈ scores, 0 ≤ r) :
    0 ≤ totalWeight scores := List.sum_nonneg h

/-- The valid weight of nonnegative scores is nonnegative. -/
theorem validWeight_nonneg (scores : List ℚ) (sigs : List (List ℕ))
    (h : ∀ r ∈ scores, 0 ≤ r) : 0 ≤ validWeight scores sigs := by
  unfold validWeight
  apply List.sum_nonneg
  intro x hx
  simp only [List.mem_map, List.mem_range] at hx
  obtain ⟨i, hi, rfl⟩ := hx
  split
  · rw [List.getD_eq_getElem _ _ hi]
    exact h _ (List.getElem_mem hi)
  · exact le_refl 0

/-- The valid weight never exceeds the total weight when scores are
nonnegative. -/
theorem validWeight_le_totalWeight (scores : List ℚ) (sigs : List (List ℕ))
    (h : ∀ r ∈ scores, 0 ≤ r) : validWeight scores sigs ≤ totalWeight scores := by
  unfold validWeight totalWeight
  calc ((List.range scores.length).map
        fun i => if sigs.getD i [] ≠ [] then scores.getD i 0 else 0).sum
      ≤ ((List.range scores.length).map fun i => scores.getD i 0).sum := by
        apply List.sum_le_sum
        intro i hi
        split
        · exact le_refl _
        · rw [List.getD_eq_getElem _ _ (List.mem_range.mp hi)]
          exact h _ (List.getElem_mem (List.mem_range.mp hi))
    _ = scores.sum := sum_map_getD_range scores

/-- Unfolding of `hasQuorum` as a predicate: the early empty-list return plus
the weighted test. -/
theorem hasQuorum_iff (wd : WitnessData) :
    wd.hasQuorum = true ↔ (wd.selected_witnesses ≠ [] ∧
      totalWeight wd.reliability_scores > 0 ∧
      verifiedWeight wd.reliability_scores wd.verification_times /
        totalWeight wd.reliability_scores ≥ wd.quorum_threshold) := by
  unfold WitnessData.hasQuorum
  split
  · rename_i h
    simp only [Bool.false_eq_true, false_iff]
    rcases h with h | h
    · tauto
    · rintro ⟨-, htot, -⟩
      rw [h] at htot
      simp [totalWeight] at htot
  · rename_i h
    push_neg at h
    simp [decide_eq_true_eq, h.1]

/-- `updateReliability` bumps the total counter by one. -/
theorem updateReliability_total (w : WitnessInfo) (b : Bool) :
    (w.updateReliability b).total_validations = w.total_validations + 1 := rfl

/-- `updateReliability` bumps the success counter exactly on success. -/
theorem updateReliability_succ (w : WitnessInfo) (b : Bool) :
    (w.updateReliability b).successful_validations =
      if b then w.successful_validations + 1 else w.successful_validations := rfl

/-- After `updateReliability` the stored score is the recomputed ratio. -/
theorem updateReliability_score (w : WitnessInfo) (b : Bool) :
    (w.updateReliability b).reliability_score =
      (w.updateReliability b).calculateReliability := rfl

/-- The total counter after a call sequence. -/
theorem applyUpdates_total (w : WitnessInfo) (l : List Bool) :
    (applyUpdates w l).total_validations = w.total_validations + l.length := by
  induction l generalizing w with
  | nil => simp [applyUpdates]
  | cons b t ih =>
    rw [applyUpdates, ih, updateReliability_total, List.length_cons]
    omega

/-- The success counter after a call sequence. -/
theorem applyUpdates_succ (w : WitnessInfo) (l : List Bool) :
    (applyUpdates w l).successful_validations =
      w.successful_validations + l.count true := by
  induction l generalizing w with
  | nil => simp [applyUpdates]
  | cons b t ih =>
    rw [applyUpdates, ih, updateReliability_succ, List.count_cons]
    cases b <;> (simp; try omega)

/-- After at least one call, the stored score is the recomputed ratio. -/
theorem applyUpdates_score (w : WitnessInfo) (l : List Bool) (h : l ≠ []) :
    (applyUpdates w l).reliability_score =
      (applyUpdates w l).calculateReliability := by
  induction l generalizing w with
  | nil => exact absurd rfl h
  | cons b t ih =>
    cases t with
    | nil => simpa [applyUpdates] using updateReliability_score w b
    | cons c u =>
      rw [applyUpdates]
      exact ih (w.updateReliability b) (by simp)

/-- C1 counterexample: with empty `selected_witnesses` but positive total
weight and a fully verified score list, `hasQuorum()` returns `false` even
though `total_weight > 0` and `verified_weight / total_weight ≥
quorum_threshold` both hold, so the claimed equivalence fails. -/
theorem c1_hasQuorum_counterexample :
    ¬ (emptySelectedQuorum.hasQuorum = true ↔
      (totalWeight emptySelectedQuorum.reliability_scores > 0 ∧
        verifiedWeight emptySelectedQuorum.reliability_scores
            emptySelectedQuorum.verification_times /
          totalWeight emptySelectedQuorum.reliability_scores ≥
          emptySelectedQuorum.quorum_threshold)) := by
  intro hiff
  have hq : emptySelectedQuorum.hasQuorum = false := by
    norm_num [WitnessData.hasQuorum, emptySelectedQuorum]
  rw [hiff.mpr (by norm_num [emptySelectedQuorum, totalWeight, verifiedWeight,
    List.range_succ, List.getD])] at hq
  exact Bool.noConfusion hq

/-- C1 (amended): `hasQuorum()` returns true iff `selected_witnesses` is
non-empty, the total reliability weight is positive, and the verified-weight
ratio meets `quorum_threshold`; in particular, with threshold `0.75` and four
selected witnesses of reliability `0.25` each, three verified votes give
quorum and only two verified votes do not. -/
theorem c1_hasQuorum (wd : WitnessData) :
    (wd.hasQuorum = true ↔ (wd.selected_witnesses ≠ [] ∧
      totalWeight wd.reliability_scores > 0 ∧
      verifiedWeight wd.reliability_scores wd.verification_times /
        totalWeight wd.reliability_scores ≥ wd.quorum_threshold)) ∧
    quorumThree.hasQuorum = true ∧ quorumTwo.hasQuorum = false := by
  refine ⟨hasQuorum_iff wd, ?_, ?_⟩
  · norm_num [WitnessData.hasQuorum, quorumThree, totalWeight, verifiedWeight,
      List.range_succ, List.getD, List.cons_ne_nil]
  · norm_num [WitnessData.hasQuorum, quorumTwo, quorumThree, totalWeight,
      verifiedWeight, List.range_succ, List.getD, List.cons_ne_nil]

/-- C2: `isReadyForConsensus()` is true iff the proof passes `isValid()`, the
ZKP data is complete, the witness quorum holds, and the confidence meets the
threshold; any proof whose `verification_confidence` is `1.2` fails
`isComplete()` and hence `isReadyForConsensus()` regardless of quorum. -/
theorem c2_isReadyForConsensus (p : BatchProof) :
    (p.isReadyForConsensus = true ↔
      (p.isValid = true ∧ p.zkp_data.isComplete = true ∧
        p.witness_data.hasQuorum = true ∧
        p.calculateConfidence ≥ p.witness_data.quorum_threshold)) ∧
    (p.zkp_data.verification_confidence = 6/5 →
      p.zkp_data.isComplete = false ∧ p.isReadyForConsensus = false) := by
  constructor
  · simp [BatchProof.isReadyForConsensus, Bool.and_eq_true, decide_eq_true_eq,
      and_assoc]
  · intro hc
    have hic : p.zkp_data.isComplete = false := by
      simp only [ZKPData.isComplete, hc, decide_eq_false_iff_not]
      rintro ⟨-, -, -, -, hle⟩
      norm_num at hle
    exact ⟨hic, by simp [BatchProof.isReadyForConsensus, hic]⟩

/-- Witness for C2 at a concrete proof whose confidence is `1.2`. -/
theorem c2_isReadyForConsensus_witness :
    sampleProof.zkp_data.isComplete = false ∧
    sampleProof.isReadyForConsensus = false :=
  (c2_isReadyForConsensus sampleProof).2 rfl

/-- C3 counterexample: a proof whose three witness arrays are all empty (so of
equal length) and which passes every other listed check has
`isValid() = false`, because the source additionally requires
`selected_witnesses` to be non-empty. -/
theorem c3_isValid_counterexample :
    ¬ (emptyWitnessProof.isValid = true ↔
      (emptyWitnessProof.timestamp > 0 ∧
        emptyWitnessProof.transaction_count > 0 ∧
        emptyWitnessProof.batch_hash ≠ [] ∧ emptyWitnessProof.proof_data ≠ [] ∧
        emptyWitnessProof.witness_signatures ≠ [] ∧
        emptyWitnessProof.witness_data.reliability_scores.length =
          emptyWitnessProof.witness_data.selected_witnesses.length ∧
        emptyWitnessProof.witness_data.verification_times.length =
          emptyWitnessProof.witness_data.selected_witnesses.length ∧
        emptyWitnessProof.witness_data.quorum_threshold ≥ 66/100 ∧
        emptyWitnessProof.metrics.avg_transaction_size > 0 ∧
        emptyWitnessProof.metrics.proof_generation_time > 0 ∧
        emptyWitnessProof.metrics.verification_time > 0 ∧
        emptyWitnessProof.metrics.recursive_depth ≤ 5 ∧
        emptyWitnessProof.metrics.quantum_enhancement_factor ≥ 1)) := by
  intro hiff
  have hv : emptyWitnessProof.isValid = false := by
    norm_num [BatchProof.isValid, emptyWitnessProof]
  rw [hiff.mpr (by norm_num [emptyWitnessProof, metricsOk])] at hv
  exact Bool.noConfusion hv

/-- C3 (amended): `BatchProof::isValid` is the conjunction of the listed
checks together with non-emptiness of `selected_witnesses`. -/
theorem c3_isValid (p : BatchProof) :
    p.isValid = true ↔ (p.timestamp > 0 ∧ p.transaction_count > 0 ∧
      p.batch_hash ≠ [] ∧ p.proof_data ≠ [] ∧ p.witness_signatures ≠ [] ∧
      p.witness_data.selected_witnesses ≠ [] ∧
      p.witness_data.reliability_scores.length =
        p.witness_data.selected_witnesses.length ∧
      p.witness_data.verification_times.length =
        p.witness_data.selected_witnesses.length ∧
      p.witness_data.quorum_threshold ≥ 66/100 ∧
      p.metrics.avg_transaction_size > 0 ∧ p.metrics.proof_generation_time > 0 ∧
      p.metrics.verification_time > 0 ∧ p.metrics.recursive_depth ≤ 5 ∧
      p.metrics.quantum_enhancement_factor ≥ 1) := by
  simp [BatchProof.isValid, BatchMetrics.isValid, decide_eq_true_eq, and_assoc]

/-- C4: `BatchConfig::isValid` is exactly the conjunction of the listed range
checks; an otherwise-default config with `witness_count = 2` is invalid, and
one with `consensus_threshold = 0.5` is invalid. -/
theorem c4_batchConfig_isValid (c : BatchConfig) :
    (c.isValid = true ↔ (c.max_transactions > 0 ∧ c.witness_count ≥ 3 ∧
      c.consensus_threshold ≥ 66/100 ∧ c.consensus_threshold ≤ 1 ∧
      c.batch_size > 0 ∧ c.batch_size ≤ c.max_transactions ∧
      c.num_parallel_verifiers > 0 ∧
      c.quantum_circuit_depth > 0 ∧ c.quantum_circuit_depth ≤ 100 ∧
      c.min_witness_reliability > 50 ∧ c.min_witness_reliability ≤ 100 ∧
      c.recursive_zkp_layers > 0 ∧ c.recursive_zkp_layers ≤ 5)) ∧
    configTwoWitnesses.isValid = false ∧ configHalfThreshold.isValid = false := by
  refine ⟨by simp [BatchConfig.isValid], ?_, ?_⟩
  · norm_num [BatchConfig.isValid, configTwoWitnesses]
  · norm_num [BatchConfig.isValid, configHalfThreshold]

/-- C7: a `WitnessInfo` as created by successful registration (zero
successful and total validations) has reliability 0: the stored score reads 0
and `calculateReliability()` returns 0.  The created record is modelled from
the spec (`registeredWitnessInfo`); `calculateReliability` is the source's. -/
theorem c7_registeredWitness_reliability (id : String) (pk : List ℕ) (now : ℕ) :
    (registeredWitnessInfo id pk now).successful_validations = 0 ∧
    (registeredWitnessInfo id pk now).total_validations = 0 ∧
    (registeredWitnessInfo id pk now).reliability_score = 0 ∧
    (registeredWitnessInfo id pk now).calculateReliability = 0 := by
  refine ⟨rfl, rfl, rfl, ?_⟩
  simp [WitnessInfo.calculateReliability, registeredWitnessInfo]

/-- C10: the default-constructed `BatchConfig` passes `isValid()`. -/
theorem c10_defaultConfig_isValid : defaultBatchConfig.isValid = true := by
  norm_num [BatchConfig.isValid, defaultBatchConfig]

/-- C5: with nonnegative reliability scores (any array shapes),
`calculateConfidence()` lies in `[0,1]`; it returns 0 when
`witness_signatures` or `reliability_scores` is empty, and otherwise equals
the sum of scores at indices with a non-empty signature divided by the sum of
all scores. -/
theorem c5_calculateConfidence (p : BatchProof)
    (hnn : ∀ r ∈ p.witness_data.reliability_scores, 0 ≤ r) :
    (0 ≤ p.calculateConfidence ∧ p.calculateConfidence ≤ 1) ∧
    ((p.witness_signatures = [] ∨ p.witness_data.reliability_scores = []) →
      p.calculateConfidence = 0) ∧
    (p.witness_signatures ≠ [] → p.witness_data.reliability_scores ≠ [] →
      p.calculateConfidence =
        validWeight p.witness_data.reliability_scores p.witness_signatures /
          totalWeight p.witness_data.reliability_scores) := by
  unfold BatchProof.calculateConfidence
  by_cases hguard : p.witness_signatures = [] ∨
      p.witness_data.reliability_scores = []
  · rw [if_pos hguard]
    exact ⟨⟨le_refl 0, by norm_num⟩, fun _ => rfl, fun hs hr =>
      hguard.elim (fun h => absurd h hs) (fun h => absurd h hr)⟩
  · rw [if_neg hguard]
    by_cases htot : totalWeight p.witness_data.reliability_scores > 0
    · rw [if_pos htot]
      refine ⟨⟨div_nonneg (validWeight_nonneg _ _ hnn) (le_of_lt htot), ?_⟩,
        fun hemp => absurd hemp hguard, fun _ _ => rfl⟩
      rw [div_le_one htot]
      exact validWeight_le_totalWeight _ _ hnn
    · rw [if_neg htot]
      push_neg at htot
      have h0 : totalWeight p.witness_data.reliability_scores = 0 :=
        le_antisymm htot (totalWeight_nonneg _ hnn)
      refine ⟨⟨le_refl 0, by norm_num⟩, fun hemp => absurd hemp hguard,
        fun _ _ => ?_⟩
      rw [h0, div_zero]

/-- Witness for C5 at a concrete proof with scores `[3/5, 2/5]`. -/
theorem c5_calculateConfidence_witness :
    0 ≤ sampleProof.calculateConfidence ∧ sampleProof.calculateConfidence ≤ 1 :=
  (c5_calculateConfidence sampleProof (by
    intro r hr
    simp only [sampleProof, List.mem_cons, List.not_mem_nil, or_false] at hr
    rcases hr with rfl | rfl <;> norm_num)).1

/-- C6: starting from any `WitnessInfo` whose counters satisfy
`successful ≤ total`, after any finite sequence of `updateReliability` calls
the invariant still holds, both counters are monotonically non-decreasing,
and as soon as at least one call has happened the stored `reliability_score`
equals `successful / total` and lies in `[0,1]`. -/
theorem c6_updateReliability_law (w : WitnessInfo) (l : List Bool)
    (h : w.successful_validations ≤ w.total_validations) :
    (applyUpdates w l).successful_validations ≤
      (applyUpdates w l).total_validations ∧
    w.successful_validations ≤ (applyUpdates w l).successful_validations ∧
    w.total_validations ≤ (applyUpdates w l).total_validations ∧
    (l ≠ [] →
      ((applyUpdates w l).reliability_score =
        ((applyUpdates w l).successful_validations : ℚ) /
          ((applyUpdates w l).total_validations : ℚ) ∧
      0 ≤ (applyUpdates w l).reliability_score ∧
      (applyUpdates w l).reliability_score ≤ 1)) := by
  have htot := applyUpdates_total w l
  have hsucc := applyUpdates_succ w l
  have hcount : l.count true ≤ l.length := List.count_le_length _ _
  refine ⟨by omega, by omega, by omega, fun hne => ?_⟩
  have hpos : 0 < (applyUpdates w l).total_validations := by
    have hlen : 0 < l.length := List.length_pos.mpr hne
    omega
  have hle : (applyUpdates w l).successful_validations ≤
      (applyUpdates w l).total_validations := by omega
  have heq : (applyUpdates w l).reliability_score =
      ((applyUpdates w l).successful_validations : ℚ) /
        ((applyUpdates w l).total_validations : ℚ) := by
    rw [applyUpdates_score w l hne]
    unfold WitnessInfo.calculateReliability
    rw [if_pos hpos]
  refine ⟨heq, ?_, ?_⟩
  · rw [heq]
    exact div_nonneg (Nat.cast_nonneg _) (Nat.cast_nonneg _)
  · rw [heq, div_le_one (by exact_mod_cast hpos)]
    exact_mod_cast hle

/-- Witness for C6: two calls (one success, one failure) from a fresh
witness. -/
theorem c6_updateReliability_law_witness :
    (applyUpdates initialWitness [true, false]).successful_validations ≤
      (applyUpdates initialWitness [true, false]).total_validations ∧
    (applyUpdates initialWitness [true, false]).reliability_score =
      ((applyUpdates initialWitness [true, false]).successful_validations : ℚ) /
        ((applyUpdates initialWitness [true, false]).total_validations : ℚ) := by
  have h := c6_updateReliability_law initialWitness [true, false] (Nat.le_refl 0)
  exact ⟨h.1, (h.2.2.2 (by simp)).1⟩

/-- C8: if a `WitnessData` has quorum, overwriting an already-positive
`verification_times` entry with any positive timestamp keeps quorum. -/
theorem c8_quorum_idempotent (sel : List String) (scores : List ℚ)
    (times : List ℕ) (q : ℚ) (hc : Bool) (i t : ℕ)
    (hi : times.getD i 0 > 0) (ht : 0 < t)
    (hq : (WitnessData.mk sel scores times q hc).hasQuorum = true) :
    (WitnessData.mk sel scores (times.set i t) q hc).hasQuorum = true := by
  rw [hasQuorum_iff] at hq ⊢
  dsimp only at hq ⊢
  obtain ⟨h1, h2, h3⟩ := hq
  refine ⟨h1, h2, ?_⟩
  rw [verifiedWeight_set scores times i t hi ht]
  exact h3

/-- Witness for C8: re-recording witness 0's vote at time 5 in the
three-of-four quorum state keeps quorum. -/
theorem c8_quorum_idempotent_witness :
    (WitnessData.mk ["w0", "w1", "w2", "w3"] [1/4, 1/4, 1/4, 1/4]
      ([1, 1, 1, 0].set 0 5) (3/4) false).hasQuorum = true :=
  c8_quorum_idempotent _ _ _ _ _ 0 5 (by decide) (by decide)
    (by norm_num [WitnessData.hasQuorum, totalWeight, verifiedWeight,
      List.range_succ, List.getD, List.cons_ne_nil])

/-- C9: `hasQuorum` and `calculateConfidence` treat indices beyond the end of
`verification_times` (resp. `witness_signatures`) as unverified (resp. as
carrying no signature): padding the shorter array with zero timestamps
(resp. empty signatures) never changes the result, for every combination of
array lengths. -/
theorem c9_short_arrays_total (sel : List String) (scores : List ℚ)
    (times : List ℕ) (q : ℚ) (hc : Bool) (k : ℕ)
    (ts tc : ℕ) (bh pd : List ℕ) (sigs : List (List ℕ)) (z : ZKPData)
    (wd : WitnessData) (m : BatchMetrics) (j : ℕ) :
    (WitnessData.mk sel scores (times ++ List.replicate k 0) q hc).hasQuorum =
      (WitnessData.mk sel scores times q hc).hasQuorum ∧
    (BatchProof.mk ts tc bh pd (sigs ++ List.replicate j []) z wd
        m).calculateConfidence =
      (BatchProof.mk ts tc bh pd sigs z wd m).calculateConfidence := by
  constructor
  · unfold WitnessData.hasQuorum
    dsimp only
    rw [verifiedWeight_pad]
  · unfold BatchProof.calculateConfidence
    dsimp only
    by_cases hr : wd.reliability_scores = []
    · rw [if_pos (Or.inr hr), if_pos (Or.inr hr)]
    · by_cases hs : sigs = []
      · subst hs
        rw [List.nil_append]
        conv_rhs => rw [if_pos (Or.inl rfl)]
        by_cases hj : List.replicate j ([] : List ℕ) = []
        · rw [if_pos (Or.inl hj)]
        · rw [if_neg (by tauto)]
          have hv : validWeight wd.reliability_scores (List.replicate j []) = 0 := by
            have hp := validWeight_pad wd.reliability_scores [] j
            rwa [List.nil_append, validWeight_nil] at hp
          rw [hv]
          split
          · exact zero_div _
          · rfl
      · have hpad : ¬(sigs ++ List.replicate j ([] : List ℕ) = [] ∨
            wd.reliability_scores = []) := by
          push_neg
          exact ⟨by simp [hs], hr⟩
        have horig : ¬(sigs = [] ∨ wd.reliability_scores = []) := by
          push_neg
          exact ⟨hs, hr⟩
        rw [if_neg hpad, if_neg horig, validWeight_pad]

end POBPC
